import Mathlib

/-!
Verification of the bank-statement import and categorization pipeline of the
scrooge backend. The Python services are shallowly embedded: pure helpers
become Lean functions over lists, the database stores become explicit lists
of rows, and the SQLAlchemy session used by the import-confirm endpoint is
modelled as an explicit (committed, pending) pair. Monetary values and
similarity scores are rationals; timestamps are integers counting seconds.
-/

namespace Scrooge

/-- Lower-cases one character the way Python str.lower does on the
alphabets this code base uses: ASCII letters and the Russian Cyrillic
block (А..Я and Ё). Other characters are unchanged. -/
def pyLowerChar (c : Char) : Char :=
  if 'A' ≤ c ∧ c ≤ 'Z' then Char.ofNat (c.toNat + 32)
  else if 'А' ≤ c ∧ c ≤ 'Я' then Char.ofNat (c.toNat + 32)
  else if c = 'Ё' then 'ё'
  else c

/-- Python str.lower restricted to ASCII plus Russian Cyrillic. -/
def pyLower (s : String) : String := ⟨s.toList.map pyLowerChar⟩

/-- Python str.strip with no arguments: trim whitespace at both ends. -/
def pyStrip (s : String) : String :=
  ⟨((s.toList.dropWhile Char.isWhitespace).reverse.dropWhile Char.isWhitespace).reverse⟩

/-- Python s.replace(c, "") for a one-character pattern: every
occurrence of the character is removed. -/
def removeChar (s : String) (c : Char) : String :=
  ⟨s.toList.filter (fun x => x ≠ c)⟩

/-- Python s.replace(c, r) for one-character pattern and replacement. -/
def replaceCharWith (s : String) (c r : Char) : String :=
  ⟨s.toList.map (fun x => if x = c then r else x)⟩

/-- Python s[n:]. -/
def strDrop (s : String) (n : Nat) : String := ⟨s.toList.drop n⟩

/-- Python falsieness test for a string: true when empty. -/
def strIsEmpty (s : String) : Bool := s.toList.isEmpty

/-- Core of the whitespace collapse used by the description normalizer:
each maximal run of whitespace becomes a single space. The Bool flag
records whether the previous character was whitespace. -/
def collapseWsGo : Bool → List Char → List Char
  | _, [] => []
  | inWs, c :: rest =>
    if c.isWhitespace then
      if inWs then collapseWsGo true rest
      else ' ' :: collapseWsGo true rest
    else c :: collapseWsGo false rest

/-- The regex substitution sub(whitespace-run, single space) from the
Python sources, applied to a whole string. -/
def collapseWs (s : String) : String := ⟨collapseWsGo false s.toList⟩

/-- Does the list start with the given needle. -/
def listStartsWith [BEq α] : List α → List α → Bool
  | _, [] => true
  | [], _ :: _ => false
  | a :: as, b :: bs => a == b && listStartsWith as bs

/-- Does the haystack contain the needle as a contiguous sublist. -/
def listContainsSub [BEq α] (hay needle : List α) : Bool :=
  match hay with
  | [] => listStartsWith ([] : List α) needle
  | _ :: t => listStartsWith hay needle || listContainsSub t needle

/-- Python substring membership: needle in hay. -/
def strContainsSub (hay needle : String) : Bool :=
  listContainsSub hay.toList needle.toList

/-- Python s.startswith(p). -/
def strStartsWith (s p : String) : Bool :=
  listStartsWith s.toList p.toList

/-- Value of a digit string read in base 10. -/
def digitsToNat (ds : List Char) : Nat :=
  ds.foldl (fun n c => 10 * n + (c.toNat - 48)) 0

/-- Reads an optional leading sign character: a minus gives the
negative flag, a plus is consumed without setting it. The decimal
grammar modelled here covers the finite forms the bank statements
produce (optional sign, digits, optional fractional part); exponent
and special forms yield none. -/
def splitSign : List Char → Bool × List Char
  | '-' :: r => (true, r)
  | '+' :: r => (false, r)
  | r => (false, r)

/-- The normalization Decimal applies to its string argument before
parsing: leading and trailing whitespace stripped, then underscores
removed. -/
def decimalNormalized (s : String) : String :=
  removeChar (pyStrip s) '_'

/-- Splits an optional leading sign off the Decimal-normalized literal
and parses the rest: the sign flag, the integer digits, the fractional
digits and the fractional length. -/
def parseDecimalParts (s : String) : Option (Bool × Nat × Nat × Nat) :=
  let signAndRest := splitSign (decimalNormalized s).toList
  let neg := signAndRest.1
  let rest := signAndRest.2
  let intPart := rest.takeWhile Char.isDigit
  let rest2 := rest.dropWhile Char.isDigit
  let build : List Char → List Char → Option (Bool × Nat × Nat × Nat) := fun ip fp =>
    if ip.isEmpty ∧ fp.isEmpty then none
    else if (ip ++ fp).all Char.isDigit then
      some (neg, digitsToNat ip, digitsToNat fp, fp.length)
    else none
  match rest2 with
  | [] => build intPart []
  | '.' :: frac => build intPart frac
  | _ => none

/-- The rational value of the parsed sign, integer digits, fractional
digits and fractional length. -/
def decimalValue (parts : Bool × Nat × Nat × Nat) : ℚ :=
  let mag : ℚ := (parts.2.1 : ℚ) + (parts.2.2.1 : ℚ) / (10 ^ parts.2.2.2 : ℚ)
  if parts.1 then -mag else mag

/-- Parses a decimal literal to its rational value the way Decimal
reads a string: surrounding whitespace stripped and underscores
removed first, then an optional sign, digits and an optional
fractional part. Exponent notation and the special values NaN and
Infinity are outside the rational model and yield none; their sign,
the only source of negativity, is still governed by the same leading
minus the normalized form exposes. -/
def parseDecimal (s : String) : Option ℚ :=
  (parseDecimalParts s).map decimalValue

/-! ## Categorization engine (services/categorization_service.py) -/

/-- Truthiness of an optional string, as Python if-tests use it: None and
the empty string are falsy. -/
def optStrTruthy : Option String → Bool
  | none => false
  | some s => !strIsEmpty s

/-- Python a or b on optional strings: the first operand when truthy,
otherwise the second. -/
def pyOrStr (a b : Option String) : Option String :=
  if optStrTruthy a then a else b

/-- Truthiness of an optional integer id: None and 0 are falsy. -/
def optNatTruthy : Option Nat → Bool
  | none => false
  | some n => n ≠ 0

/-- A row of the transaction_patterns table. -/
structure TransactionPattern where
  userId : Nat
  rawDescription : String
  normalizedPattern : String
  categoryName : String
  categoryId : Option Nat
  mccCode : Option String
  txType : String
  usageCount : Nat
deriving DecidableEq, Repr

/-- A row of the mcc_codes reference table. -/
structure MCCCode where
  code : String
  nameEn : String
  nameRu : Option String
  suggestedCategoryEn : Option String
  suggestedCategoryRu : Option String
  transactionType : String
deriving DecidableEq, Repr

/-- A persisted transaction row, restricted to the fields the
categorization and duplicate-detection services read. -/
structure StoredTransaction where
  userId : Nat
  txType : String
  amount : ℚ
  categoryName : String
  description : Option String
  rawDescription : Option String
  transactionDate : Option Int
deriving DecidableEq, Repr

/-- The CategorySuggestion dataclass. -/
structure CategorySuggestion where
  category : String
  score : ℚ
  source : String
deriving DecidableEq, Repr

/-- The category, confidence, score mapping returned by categorize. -/
structure CategorizeResult where
  category : String
  confidence : String
  score : ℚ
deriving DecidableEq, Repr

/-- The similarity backend (thefuzz). The two functions return integer
scores in 0..100; the categorization claims do not depend on their
internals, so they are kept as parameters of the model. similarity
stands for the whole-string score, partialSimilarity for the
substring score. -/
structure Fuzz where
  similarity : String → String → Nat
  partialSimilarity : String → String → Nat

/-- The method normalize_text: lower-case, strip, collapse whitespace. -/
def normalizeText (text : String) : String :=
  collapseWs (pyStrip (pyLower text))

/-- Descending-usage comparison on pattern rows, the ORDER BY of the
pattern query. -/
def usageGe (a b : TransactionPattern) : Prop := b.usageCount ≤ a.usageCount

instance : DecidableRel usageGe := fun a b => Nat.decLe b.usageCount a.usageCount

instance : IsTotal TransactionPattern usageGe := ⟨fun a b => Nat.le_total b.usageCount a.usageCount⟩

instance : IsTrans TransactionPattern usageGe := ⟨fun _ _ _ h h2 => Nat.le_trans h2 h⟩

/-- The method get_user_patterns: the rows of one user, ordered by
descending usage_count. -/
def getUserPatterns (store : List TransactionPattern) (userId : Nat) : List TransactionPattern :=
  List.insertionSort usageGe (store.filter (fun p => p.userId == userId))

/-- Score of an exact normalized-pattern hit: min(0.95 + usage * 0.01, 0.99). -/
def patternScore (p : TransactionPattern) : ℚ :=
  min (0.95 + (p.usageCount : ℚ) * 0.01) 0.99

/-- The scan loop of match_user_pattern over the ordered pattern rows:
per row, exact normalized match first, then whole-string similarity at
threshold 85, then partial similarity at threshold 90; the first row
passing any check wins. -/
def matchUserPatternGo (fz : Fuzz) (normalized rawDescription : String) :
    List TransactionPattern → Option CategorySuggestion
  | [] => none
  | p :: rest =>
    if p.normalizedPattern == normalized then
      some ⟨p.categoryName, patternScore p, "pattern"⟩
    else
      let simScore := fz.similarity (pyLower p.rawDescription) (pyLower rawDescription)
      if 85 ≤ simScore then
        some ⟨p.categoryName, (simScore : ℚ) / 100, "fuzzy"⟩
      else
        let partialScore := fz.partialSimilarity p.normalizedPattern normalized
        if 90 ≤ partialScore then
          some ⟨p.categoryName, (partialScore : ℚ) / 100, "fuzzy"⟩
        else
          matchUserPatternGo fz normalized rawDescription rest

/-- The method match_user_pattern. -/
def matchUserPattern (fz : Fuzz) (store : List TransactionPattern)
    (rawDescription : String) (userId : Nat) : Option CategorySuggestion :=
  matchUserPatternGo fz (normalizeText rawDescription) rawDescription
    (getUserPatterns store userId)

/-- Specification-side predicate for C6: a pattern row meets a
threshold when its normalized pattern equals the normalized candidate,
or the whole-string similarity of the lower-cased raw descriptions is
at least 85, or the partial similarity of the normalized forms is at
least 90. -/
def meetsThreshold (fz : Fuzz) (normalized rawDescription : String)
    (p : TransactionPattern) : Bool :=
  p.normalizedPattern == normalized
  || 85 ≤ fz.similarity (pyLower p.rawDescription) (pyLower rawDescription)
  || 90 ≤ fz.partialSimilarity p.normalizedPattern normalized

/-- Specification-side score assignment for C6: the suggestion built
from a row meeting a threshold, with the same precedence of checks as
the scan. -/
def thresholdSuggestion (fz : Fuzz) (normalized rawDescription : String)
    (p : TransactionPattern) : CategorySuggestion :=
  if p.normalizedPattern == normalized then
    ⟨p.categoryName, patternScore p, "pattern"⟩
  else if 85 ≤ fz.similarity (pyLower p.rawDescription) (pyLower rawDescription) then
    ⟨p.categoryName,
      (fz.similarity (pyLower p.rawDescription) (pyLower rawDescription) : ℚ) / 100, "fuzzy"⟩
  else
    ⟨p.categoryName,
      (fz.partialSimilarity p.normalizedPattern normalized : ℚ) / 100, "fuzzy"⟩

/-- The method get_mcc_mapping: point lookup by code, then the
language-preferred suggested category with fallback to the other
language (Python or on the two optional columns). -/
def getMccMapping (table : List MCCCode) (mccCode : Option String)
    (language : String) : Option String :=
  if !optStrTruthy mccCode then none
  else
    match mccCode with
    | none => none
    | some c =>
      match table.find? (fun m => m.code == c) with
      | some m =>
        if language == "ru" then pyOrStr m.suggestedCategoryRu m.suggestedCategoryEn
        else pyOrStr m.suggestedCategoryEn m.suggestedCategoryRu
      | none => none

/-- One fold step of match_transaction_history: keep the
strictly-better match with similarity at least 80, skipping rows whose
raw description is absent or empty. -/
def historyStep (fz : Fuzz) (rawDescription : String)
    (acc : Option StoredTransaction × Nat) (t : StoredTransaction) :
    Option StoredTransaction × Nat :=
  match t.rawDescription with
  | none => acc
  | some rd =>
    if strIsEmpty rd then acc
    else
      let s := fz.similarity (pyLower rd) (pyLower rawDescription)
      if acc.2 < s ∧ 80 ≤ s then (some t, s) else acc

/-- The history query: the user rows with a non-null raw description,
most recent first (the list is assumed ordered by descending
created_at, as the query orders it), capped at 100. -/
def getRecentHistory (txns : List StoredTransaction) (userId : Nat) :
    List StoredTransaction :=
  (txns.filter (fun t => t.userId == userId && t.rawDescription.isSome)).take 100

/-- The method match_transaction_history. -/
def matchTransactionHistory (fz : Fuzz) (txns : List StoredTransaction)
    (rawDescription : String) (userId : Nat) : Option CategorySuggestion :=
  let best := (getRecentHistory txns userId).foldl (historyStep fz rawDescription) (none, 0)
  match best.1 with
  | some t => some ⟨t.categoryName, (best.2 : ℚ) / 100, "history"⟩
  | none => none

/-- The three stores the categorization service reads. -/
structure CatDB where
  patterns : List TransactionPattern
  mccTable : List MCCCode
  transactions : List StoredTransaction

/-- The regex merchant-rule layer (match_regex_patterns) maps a raw
description and a language to an optional suggestion by scanning the
static MERCHANT_PATTERNS table. The claims under verification never
depend on a specific rule firing, so the layer is a parameter of the
model; passing it explicitly also lets theorems quantify over it. -/
def RegexLayer := String → String → Option CategorySuggestion

/-- The language-appropriate default category of categorize. -/
def defaultCategory (language : String) : String :=
  if language == "en" then "Other" else "Другое"

/-- The method categorize: guard on a blank description, then the
layered chain with its two short-circuit returns, the regex and
history layers, the low-confidence pattern fallback, and the default. -/
def categorize (fz : Fuzz) (regexLayer : RegexLayer) (db : CatDB) (userId : Nat)
    (rawDescription : Option String) (mccCode : Option String)
    (language : String) : CategorizeResult :=
  let blank : CategorizeResult := ⟨defaultCategory language, "low", 0⟩
  match rawDescription with
  | none => blank
  | some d =>
    if strIsEmpty d || strIsEmpty (pyStrip d) then blank
    else
      let suggestion := matchUserPattern fz db.patterns d userId
      let step1 : Option CategorizeResult :=
        match suggestion with
        | some s => if 0.9 ≤ s.score then some ⟨s.category, "high", s.score⟩ else none
        | none => none
      match step1 with
      | some r => r
      | none =>
        let step2 : Option CategorizeResult :=
          if optStrTruthy mccCode then
            match getMccMapping db.mccTable mccCode language with
            | some c => if strIsEmpty c then none else some ⟨c, "high", 0.85⟩
            | none => none
          else none
        match step2 with
        | some r => r
        | none =>
          match regexLayer d language with
          | some rm => ⟨rm.category, "medium", rm.score⟩
          | none =>
            let step4 : Option CategorizeResult :=
              match matchTransactionHistory fz db.transactions d userId with
              | some h => if 0.8 ≤ h.score then some ⟨h.category, "medium", h.score⟩ else none
              | none => none
            match step4 with
            | some r => r
            | none =>
              match suggestion with
              | some s =>
                if 0.7 ≤ s.score then ⟨s.category, "medium", s.score⟩
                else ⟨defaultCategory language, "low", 0⟩
              | none => ⟨defaultCategory language, "low", 0⟩

/-- Key of the upsert in learn_pattern. -/
def patternKey (p : TransactionPattern) : Nat × String :=
  (p.userId, p.normalizedPattern)

/-- The upsert key test of learn_pattern on one row. -/
def patternKeyMatch (userId : Nat) (normalized : String)
    (p : TransactionPattern) : Bool :=
  p.userId == userId && p.normalizedPattern == normalized

/-- The lookup learn_pattern performs (scalar_one_or_none presupposes at
most one row per key; the model reads the first). -/
def findPattern (store : List TransactionPattern) (userId : Nat)
    (normalized : String) : Option TransactionPattern :=
  store.find? (patternKeyMatch userId normalized)

/-- The in-place update learn_pattern applies to the existing row:
usage_count incremented, category_name overwritten, category_id
overwritten only when a truthy category_id is supplied. -/
def applyPatternUpdate (categoryName : String) (categoryId : Option Nat)
    (p : TransactionPattern) : TransactionPattern :=
  { p with
    usageCount := p.usageCount + 1
    categoryName := categoryName
    categoryId := if optNatTruthy categoryId then categoryId else p.categoryId }

/-- The method learn_pattern: update the existing row for
(user, normalized description) in place, or insert a fresh row with
usage_count 1. -/
def learnPattern (store : List TransactionPattern) (userId : Nat)
    (rawDescription categoryName : String) (categoryId : Option Nat)
    (mccCode : Option String) : List TransactionPattern :=
  let normalized := normalizeText rawDescription
  match findPattern store userId normalized with
  | some _ =>
    store.map (fun p =>
      if patternKeyMatch userId normalized p then
        applyPatternUpdate categoryName categoryId p
      else p)
  | none =>
    store ++ [{ userId := userId
                rawDescription := rawDescription
                normalizedPattern := normalized
                categoryName := categoryName
                categoryId := categoryId
                mccCode := mccCode
                txType := "expense"
                usageCount := 1 }]

/-- Arguments of one learn_pattern call, for stating the invariant over
call sequences. -/
structure LearnCall where
  userId : Nat
  rawDescription : String
  categoryName : String
  categoryId : Option Nat
  mccCode : Option String

/-- A sequence of learn_pattern calls applied to a pattern store. -/
def applyLearnCalls (store : List TransactionPattern) (calls : List LearnCall) :
    List TransactionPattern :=
  calls.foldl
    (fun s c => learnPattern s c.userId c.rawDescription c.categoryName c.categoryId c.mccCode)
    store

/-- At most one pattern row per (user_id, normalized_pattern) key. -/
def UniqueKeys (store : List TransactionPattern) : Prop :=
  store.Pairwise (fun p q => patternKey p ≠ patternKey q)

/-! ## Duplicate detector (services/transaction_service.py, find_duplicates) -/

/-- SQL LIKE pattern matching: a percent sign matches any character
sequence (tried over every suffix of the text), an underscore matches
exactly one character, and any other pattern character matches itself.
-/
def likeMatch : List Char → List Char → Bool
  | [], text => text.isEmpty
  | '%' :: ps, text => (text.tails).any (fun suffix => likeMatch ps suffix)
  | '_' :: ps, text =>
    match text with
    | [] => false
    | _ :: ts => likeMatch ps ts
  | p :: ps, text =>
    match text with
    | [] => false
    | t :: ts => p == t && likeMatch ps ts

/-- The SQL condition column ILIKE '%' + description + '%' on an
optional column: the interpolated description is not escaped, so
percent signs and underscores inside it act as wildcards; matching is
case-insensitive and a NULL column never matches. -/
def optIContains : Option String → String → Bool
  | none, _ => false
  | some s, description =>
    likeMatch ('%' :: (pyLower description).toList ++ ['%']) (pyLower s).toList

/-- The date-window condition of find_duplicates: the stored date lies
in [candidate - tolerance days, candidate + tolerance days]; a stored
NULL date fails the SQL comparison. One day is 86400 seconds. -/
def withinDays (storedDate : Option Int) (candidate : Int) (daysTolerance : Int) : Bool :=
  match storedDate with
  | some dt => candidate - daysTolerance * 86400 ≤ dt ∧ dt ≤ candidate + daysTolerance * 86400
  | none => false

/-- The description disjunction of find_duplicates: exact equality on
the raw or display description, or ilike containment of the candidate
description in either column. -/
def descMatches (t : StoredTransaction) (description : String) : Bool :=
  t.rawDescription == some description
  || t.description == some description
  || optIContains t.rawDescription description
  || optIContains t.description description

/-- The method find_duplicates, as the query builds it: the user and
absolute-amount filter, then the date window when a candidate date is
given, then the description disjunction. -/
def findDuplicates (store : List StoredTransaction) (userId : Nat)
    (description : String) (amount : ℚ) (transactionDate : Option Int)
    (daysTolerance : Int) : List StoredTransaction :=
  let base : List StoredTransaction :=
    store.filter (fun t => t.userId == userId && t.amount == abs amount)
  let dated : List StoredTransaction :=
    match transactionDate with
    | some d => base.filter (fun t => withinDays t.transactionDate d daysTolerance)
    | none => base
  dated.filter (fun t => descMatches t description)

/-! ## Bank adapters (services/import_service.py) -/

/-- Direction of a parsed transaction. -/
inductive TxType where
  | income
  | expense
deriving DecidableEq, Repr

/-- The ParsedTransaction dataclass, as produced by the parsers (the
categorization and duplicate fields still carry their defaults). -/
structure ParsedTx where
  rawDescription : String
  amount : ℚ
  transactionDate : Option Int
  mccCode : Option String
  txType : Option TxType
  suggestedCategory : Option String
deriving DecidableEq, Repr

/-- A spreadsheet cell as the adapters see it: missing (NaN), numeric,
or text. -/
inductive CellValue where
  | null
  | num (q : ℚ)
  | str (s : String)
deriving DecidableEq, Repr

/-- The text cleanup of the shared helper normalize_amount: spaces
removed, comma decimal separator turned into a dot, no-break spaces
removed. -/
def amountCleaned (s : String) : String :=
  removeChar (replaceCharWith (removeChar s ' ') ',' '.') '\xa0'

/-- Value of normalize_amount on a text cell: the cleaned text parsed,
with unparsable text becoming 0. -/
def normalizeAmountStr (s : String) : ℚ :=
  match parseDecimal (amountCleaned s) with
  | some q => q
  | none => 0

/-- The shared helper normalize_amount: missing cells become 0, numeric
cells keep their value, text cells are cleaned and parsed. -/
def normalizeAmount : CellValue → ℚ
  | .null => 0
  | .num q => q
  | .str s => normalizeAmountStr s

/-- Lower-cased column-name set membership (pandas lower-cases the
header row before detection). -/
def columnPresent (cols : List String) (name : String) : Bool :=
  (cols.map pyLower).contains name

/-- Are all required column names present (case-insensitively). -/
def requiredSubset (required cols : List String) : Bool :=
  required.all (columnPresent cols)

/-- The Tinkoff-specific required columns. -/
def tinkoffRequired : List String :=
  ["дата операции", "описание", "сумма операции", "категория"]

/-- TinkoffAdapter.detect. -/
def tinkoffDetect (cols : List String) : Bool :=
  requiredSubset tinkoffRequired cols

/-- The Sber-specific required columns. -/
def sberRequired : List String := ["дата", "сумма", "описание"]

/-- SberAdapter.detect: its three columns must be present and the
Tinkoff operation-date column must be absent. -/
def sberDetect (cols : List String) : Bool :=
  requiredSubset sberRequired cols
    && !columnPresent cols "дата операции"

/-- The Alfa-specific required columns. -/
def alfaRequired : List String := ["приход", "расход"]

/-- AlfaAdapter.detect. -/
def alfaDetect (cols : List String) : Bool :=
  requiredSubset alfaRequired cols

/-- GenericAdapter.detect: always succeeds. -/
def genericDetect (_cols : List String) : Bool := true

/-- One row of a Sber CSV export. The amount field models
str(row[сумма]) (Sber statements carry signed text there), the type
field models the lower-case text of the type column. -/
structure SberRow where
  amount : String
  typeCol : String
  date : Option Int
  description : String
deriving Repr

/-- The cleanup SberAdapter.parse applies to the amount text. -/
def sberCleanAmount (s : String) : String :=
  replaceCharWith (removeChar (removeChar s ' ') '\xa0') ',' '.'

/-- The keyword test on the Sber type column for income synonyms. -/
def sberIncomeKeyword (typeCol : String) : Bool :=
  strContainsSub (pyLower typeCol) "доход"
  || strContainsSub (pyLower typeCol) "приход"
  || strContainsSub (pyLower typeCol) "зачисление"
  || strContainsSub (pyLower typeCol) "income"

/-- SberAdapter.parse on one row: a leading minus means expense and a
leading plus income, normalizing the rest of the text; an unsigned
amount is normalized whole and the direction read from the type
column. -/
def sberParseRow (r : SberRow) : ParsedTx :=
  let amountStr := sberCleanAmount r.amount
  let dir : TxType × ℚ :=
    if strStartsWith amountStr "-" then
      (.expense, normalizeAmount (.str (strDrop amountStr 1)))
    else if strStartsWith amountStr "+" then
      (.income, normalizeAmount (.str (strDrop amountStr 1)))
    else
      (if sberIncomeKeyword r.typeCol then .income else .expense,
        normalizeAmount (.str amountStr))
  { rawDescription := pyStrip r.description
    amount := dir.2
    transactionDate := r.date
    mccCode := none
    txType := some dir.1
    suggestedCategory := none }

/-- SberAdapter.parse over a table. -/
def sberParse (rows : List SberRow) : List ParsedTx :=
  rows.map sberParseRow

/-- Python lstrip of leading plus and minus characters. -/
def stripSigns (s : String) : String :=
  ⟨s.toList.dropWhile (fun c => c = '+' ∨ c = '-')⟩

/-- The helper parse_amount of the PDF parser: empty text gives none;
whitespace, no-break spaces and currency symbols are removed and the
comma decimal separator normalized; a leading minus or a debit marker
makes the value negative after all leading signs are stripped;
unparsable text gives none. -/
def pdfParseAmount (s : String) : Option ℚ :=
  if strIsEmpty s then none
  else
    let cleaned0 : String := ⟨(pyStrip s).toList.filter (fun c => !c.isWhitespace)⟩
    let cleaned1 := replaceCharWith (removeChar cleaned0 '\xa0') ',' '.'
    let cleaned := removeChar (removeChar (removeChar (removeChar cleaned1 '₽') '$') '€') '£'
    let isNeg := strStartsWith cleaned "-" || strContainsSub (pyLower cleaned) "дб"
    match parseDecimal (stripSigns cleaned) with
    | some a => some (if isNeg then -a else a)
    | none => none

/-- A row of a table extracted from a Tinkoff PDF: the cell texts, with
empty standing for a falsy cell. The date cell is modelled
post-parsing. -/
structure TinkoffPdfRow where
  cells : List String
  date : Option Int
deriving Repr

/-- parse_tinkoff_pdf on one table row: rows shorter than four cells,
rows with a blank description or amount cell, and rows whose amount is
unparsable or zero are skipped; a negative amount means expense with
the absolute value kept. -/
def tinkoffPdfParseRow (r : TinkoffPdfRow) : Option ParsedTx :=
  if r.cells.length < 4 then none
  else
    let description := r.cells.getD 1 ""
    let amountStr := r.cells.getD 2 ""
    if strIsEmpty description || strIsEmpty amountStr then none
    else
      match pdfParseAmount amountStr with
      | none => none
      | some a =>
        if a == 0 then none
        else
          let dir : TxType × ℚ := if a < 0 then (.expense, -a) else (.income, a)
          some { rawDescription := pyStrip description
                 amount := dir.2
                 transactionDate := r.date
                 mccCode := none
                 txType := some dir.1
                 suggestedCategory := none }

/-- parse_tinkoff_pdf over the extracted rows. -/
def tinkoffPdfParse (rows : List TinkoffPdfRow) : List ParsedTx :=
  rows.filterMap tinkoffPdfParseRow

/-- The regex capture of one Sber PDF text line: date text, description
text and amount text, or none when the line does not match. The date
is modelled post-parsing. -/
structure SberPdfLine where
  capture : Option (String × String × Option Int)
  amountText : String
deriving Repr

/-- parse_sber_pdf on one line: lines without a capture are skipped, as
are lines whose amount text is unparsable or zero; a negative amount
means expense with the absolute value kept. -/
def sberPdfParseLine (ln : SberPdfLine) : Option ParsedTx :=
  match ln.capture with
  | none => none
  | some (_, description, date) =>
    match pdfParseAmount ln.amountText with
    | none => none
    | some a =>
      if a == 0 then none
      else
        let dir : TxType × ℚ := if a < 0 then (.expense, -a) else (.income, a)
        some { rawDescription := pyStrip description
               amount := dir.2
               transactionDate := date
               mccCode := none
               txType := some dir.1
               suggestedCategory := none }

/-- parse_sber_pdf over the extracted lines. -/
def sberPdfParse (lines : List SberPdfLine) : List ParsedTx :=
  lines.filterMap sberPdfParseLine

/-- The regex extraction results for one text line of a generic PDF:
the date substrings found (one candidate per date pattern, in pattern
order), the amount substrings found (findall results in pattern
order), and the line text with the date and amount patterns removed. -/
structure GenericPdfLine where
  dateCandidates : List String
  amountCandidates : List String
  strippedText : String
deriving Repr

/-- The date loop of parse_generic_pdf: the first candidate substring
the date parser accepts. The strptime date parser is a parameter of
the model. -/
def firstParsedDate (parseDateFn : String → Option Int) :
    List String → Option Int
  | [] => none
  | c :: rest =>
    match parseDateFn c with
    | some d => some d
    | none => firstParsedDate parseDateFn rest

/-- The amount loop of parse_generic_pdf: the first candidate substring
that parses to a nonzero amount. -/
def firstValidAmount : List String → Option ℚ
  | [] => none
  | c :: rest =>
    match pdfParseAmount c with
    | some a => if a == 0 then firstValidAmount rest else some a
    | none => firstValidAmount rest

/-- Python strip with the character set space, bar, colon, minus. -/
def stripEdgePunct (s : String) : String :=
  let bad : Char → Bool := fun c => c = ' ' ∨ c = '|' ∨ c = ':' ∨ c = '-'
  ⟨((s.toList.dropWhile bad).reverse.dropWhile bad).reverse⟩

/-- parse_generic_pdf on one line: a transaction is emitted only when
the line has both a parsable date and a nonzero parsable amount and
the remaining text, whitespace-collapsed and trimmed of edge
punctuation, is longer than two characters; a negative amount means
expense with the absolute value kept. -/
def genericPdfParseLine (parseDateFn : String → Option Int)
    (ln : GenericPdfLine) : Option ParsedTx :=
  match firstParsedDate parseDateFn ln.dateCandidates, firstValidAmount ln.amountCandidates with
  | some date, some a =>
    let description := stripEdgePunct (collapseWs (pyStrip ln.strippedText))
    if !strIsEmpty description ∧ 2 < description.length then
      let dir : TxType × ℚ := if a < 0 then (.expense, -a) else (.income, a)
      some { rawDescription := description
             amount := dir.2
             transactionDate := some date
             mccCode := none
             txType := some dir.1
             suggestedCategory := none }
    else none
  | _, _ => none

/-- parse_generic_pdf over the extracted lines: a total function, the
never-raises fallback. -/
def genericPdfParse (parseDateFn : String → Option Int)
    (lines : List GenericPdfLine) : List ParsedTx :=
  lines.filterMap (genericPdfParseLine parseDateFn)

/-- The text-extraction view of one PDF document: the Sber regex
captures and the generic regex extractions of the same extracted text.
-/
structure PdfText where
  sberLines : List SberPdfLine
  genericLines : List GenericPdfLine

/-- PDFParser.parse, with the outcome of the two extraction steps
supplied as arguments: extract_tables feeding the Tinkoff parser and
extract_text feeding both the Sber and the generic parser (error when
the backend raised; the backends are external and deterministic per
document, so both extract_text calls share one outcome). A truthy hint
naming a bank dispatches straight to that parser, propagating its
outcome; otherwise the Tinkoff attempt is tried, any exception caught,
then the Sber attempt, and when both raised the generic parser is
called — whose own extract_text call then raises the same extraction
error instead of returning a list. -/
def pdfDispatch (bankHint : Option String) (parseDateFn : String → Option Int)
    (tables : Except Unit (List TinkoffPdfRow))
    (text : Except Unit PdfText) : Except Unit (List ParsedTx) :=
  let tinkoffAttempt : Except Unit (List ParsedTx) := tables.map tinkoffPdfParse
  let sberAttempt : Except Unit (List ParsedTx) :=
    text.map (fun t => sberPdfParse t.sberLines)
  let genericAttempt : Except Unit (List ParsedTx) :=
    text.map (fun t => genericPdfParse parseDateFn t.genericLines)
  let noHint : Except Unit (List ParsedTx) :=
    match tinkoffAttempt with
    | .ok l => .ok l
    | .error _ =>
      match sberAttempt with
      | .ok l => .ok l
      | .error _ => genericAttempt
  match bankHint with
  | none => noHint
  | some h =>
    if strIsEmpty h then noHint
    else
      let hl := pyLower h
      if strContainsSub hl "tinkoff" || strContainsSub hl "тинькофф" then tinkoffAttempt
      else if strContainsSub hl "sber" || strContainsSub hl "сбер" then sberAttempt
      else noHint

/-! ## Import confirmation (routers/import_statements.py, confirm_import) -/

/-- The database session of one confirm request, reduced to the
transaction rows it writes: rows already committed and rows added but
not yet committed. Rows are identified by a numeric tag. -/
structure Session where
  committed : List Nat
  pending : List Nat
deriving DecidableEq, Repr

/-- commit: pending rows become durable. -/
def commitS (s : Session) : Session :=
  ⟨s.committed ++ s.pending, []⟩

/-- rollback: pending rows are discarded; committed rows stay. -/
def rollbackS (s : Session) : Session :=
  ⟨s.committed, []⟩

/-- Outcome of the get_or_create category step for one transaction:
found an existing category (no commit), created one (get_or_create
commits, flushing everything pending), or raised. -/
inductive CategoryStage where
  | okExisting
  | okCreated
  | fails
deriving DecidableEq, Repr

/-- One entry of the confirm request together with the behavior of the
fallible steps on it: the category stage outcome, whether building and
adding the transaction row succeeds, and whether the learn_pattern
call (which commits on success, and whose failure is caught) succeeds.
-/
structure ConfirmItem where
  txId : Nat
  confidence : String
  categoryStage : CategoryStage
  constructOk : Bool
  learnOk : Bool
deriving DecidableEq, Repr

/-- State threaded through the confirm loop. -/
structure ConfirmState where
  session : Session
  importedCount : Nat
  savedPatterns : Nat
deriving DecidableEq, Repr

/-- One iteration of the confirm loop: any exception up to the row add
triggers a session rollback and moves to the next entry; a successful
add increments imported_count at once; pattern learning runs only when
save_patterns is set and the confidence is high or medium, commits the
session when it succeeds, and is merely logged when it fails. -/
def confirmStep (savePatterns : Bool) (st : ConfirmState) (item : ConfirmItem) :
    ConfirmState :=
  match item.categoryStage with
  | .fails => { st with session := rollbackS st.session }
  | stage =>
    let s1 := if stage == CategoryStage.okCreated then commitS st.session else st.session
    if !item.constructOk then
      { st with session := rollbackS s1 }
    else
      let s2 : Session := { s1 with pending := s1.pending ++ [item.txId] }
      let count := st.importedCount + 1
      if savePatterns && (item.confidence == "high" || item.confidence == "medium") then
        if item.learnOk then ⟨commitS s2, count, st.savedPatterns + 1⟩
        else ⟨s2, count, st.savedPatterns⟩
      else ⟨s2, count, st.savedPatterns⟩

/-- The confirm_import endpoint: fold the loop over the request entries
starting from a fresh session, then the final commit; the response
carries imported_count and saved_patterns. -/
def confirmImport (savePatterns : Bool) (items : List ConfirmItem) : ConfirmState :=
  let final := items.foldl (confirmStep savePatterns) ⟨⟨[], []⟩, 0, 0⟩
  ⟨commitS final.session, final.importedCount, final.savedPatterns⟩

/-! ## Helper lemmas -/

theorem getMccMapping_truthy {table : List MCCCode} {mcc : Option String}
    {lang c : String} (h : getMccMapping table mcc lang = some c) :
    optStrTruthy mcc = true := by
  cases ht : optStrTruthy mcc with
  | true => rfl
  | false => simp [getMccMapping, ht] at h

theorem strIsEmpty_true_iff (s : String) : strIsEmpty s = true ↔ s = "" := by
  constructor
  · intro h
    cases s with
    | mk data =>
      cases data with
      | nil => rfl
      | cons c t => exact absurd h (by simp [strIsEmpty, String.toList, List.isEmpty])
  · intro h
    subst h
    rfl

theorem strIsEmpty_false_of_ne (s : String) (h : s ≠ "") : strIsEmpty s = false := by
  cases he : strIsEmpty s
  · rfl
  · exact absurd ((strIsEmpty_true_iff s).mp he) h

theorem pyStrip_empty : pyStrip "" = "" := rfl

/-! ## C10 -/

/-- C10: categorize on a missing, empty or whitespace-only description
returns the language default (Other for en, Другое otherwise) with
confidence low and score 0, for every pattern store, MCC table,
history, similarity backend, regex layer and MCC argument. -/
theorem categorize_blank_description_default
    (fz : Fuzz) (regexLayer : RegexLayer) (db : CatDB) (userId : Nat)
    (mccCode : Option String) (language : String) :
    categorize fz regexLayer db userId none mccCode language
      = ⟨if language == "en" then "Other" else "Другое", "low", 0⟩
    ∧ ∀ s : String, pyStrip s = "" →
        categorize fz regexLayer db userId (some s) mccCode language
          = ⟨if language == "en" then "Other" else "Другое", "low", 0⟩ := by
  constructor
  · rfl
  · intro s h
    have hb : strIsEmpty (pyStrip s) = true := by
      rw [h]; rfl
    simp [categorize, hb, defaultCategory]

/-- Witness for C10 at a blank description, a Russian language setting
and an MCC argument that the reference table maps. -/
theorem categorize_blank_description_default_witness :
    categorize ⟨fun _ _ => 0, fun _ _ => 0⟩ (fun _ _ => none)
      ⟨[], [⟨"5411", "Grocery Stores", none, some "Groceries", some "Продукты", "expense"⟩], []⟩
      1 (some "   ") (some "5411") "ru"
      = ⟨"Другое", "low", 0⟩ := by
  have h := (categorize_blank_description_default
    ⟨fun _ _ => 0, fun _ _ => 0⟩ (fun _ _ => none)
    ⟨[], [⟨"5411", "Grocery Stores", none, some "Groceries", some "Продукты", "expense"⟩], []⟩
    1 (some "5411") "ru").2 "   " (by decide)
  simpa using h

/-! ## C5 -/

/-- C5: learning a pattern for UNIQUE_SHOP_123 with category Groceries
and then categorizing the same description returns Groceries with
confidence high and score 0.96, which is at least 0.95 — for every
similarity backend, regex layer, MCC table, history, user, pattern
category id, pattern MCC, categorize MCC argument and language (the
fresh pattern matches exactly and short-circuits the chain). -/
theorem learn_then_categorize_roundtrip
    (fz : Fuzz) (regexLayer : RegexLayer) (mccTable : List MCCCode)
    (txns : List StoredTransaction) (userId : Nat) (categoryId : Option Nat)
    (mccCode mccArg : Option String) (language : String) :
    categorize fz regexLayer
        ⟨learnPattern [] userId "UNIQUE_SHOP_123" "Groceries" categoryId mccCode,
          mccTable, txns⟩
        userId (some "UNIQUE_SHOP_123") mccArg language
      = ⟨"Groceries", "high", 0.96⟩
    ∧ (0.95 : ℚ) ≤ 0.96 := by
  refine ⟨?_, by norm_num⟩
  have hstore : learnPattern [] userId "UNIQUE_SHOP_123" "Groceries" categoryId mccCode
      = [⟨userId, "UNIQUE_SHOP_123", normalizeText "UNIQUE_SHOP_123", "Groceries",
          categoryId, mccCode, "expense", 1⟩] := rfl
  rw [hstore]
  have hg1 : strIsEmpty "UNIQUE_SHOP_123" = false := rfl
  have hg2 : strIsEmpty (pyStrip "UNIQUE_SHOP_123") = false := rfl
  have hmatch : matchUserPattern fz
      [⟨userId, "UNIQUE_SHOP_123", normalizeText "UNIQUE_SHOP_123", "Groceries",
        categoryId, mccCode, "expense", 1⟩] "UNIQUE_SHOP_123" userId
      = some ⟨"Groceries",
          patternScore ⟨userId, "UNIQUE_SHOP_123", normalizeText "UNIQUE_SHOP_123",
            "Groceries", categoryId, mccCode, "expense", 1⟩, "pattern"⟩ := by
    simp [matchUserPattern, getUserPatterns, List.insertionSort, List.orderedInsert,
      matchUserPatternGo]
  have hscore : patternScore ⟨userId, "UNIQUE_SHOP_123", normalizeText "UNIQUE_SHOP_123",
      "Groceries", categoryId, mccCode, "expense", 1⟩ = 0.96 := by
    norm_num [patternScore]
  simp only [categorize, hg1, hg2, Bool.or_self, Bool.false_eq_true, if_false, hmatch,
    hscore]
  norm_num

/-! ## C1 -/

/-- C1: the priority chain of categorize on a non-blank description:
when the user-pattern layer yields a suggestion scoring at least 0.9,
categorize returns that category with confidence high and that score,
whatever the MCC argument; otherwise, when the MCC lookup yields a
non-empty category (the language-appropriate suggestion of the matched
table row with fallback to the other language), categorize returns it
with confidence high and score 0.85. -/
theorem categorize_pattern_priority_then_mcc
    (fz : Fuzz) (regexLayer : RegexLayer) (db : CatDB) (userId : Nat)
    (d : String) (mccCode : Option String) (language : String)
    (hd : pyStrip d ≠ "") :
    (∀ s, matchUserPattern fz db.patterns d userId = some s → 0.9 ≤ s.score →
      categorize fz regexLayer db userId (some d) mccCode language
        = ⟨s.category, "high", s.score⟩)
    ∧ ((∀ s, matchUserPattern fz db.patterns d userId = some s → s.score < 0.9) →
      ∀ c, getMccMapping db.mccTable mccCode language = some c → c ≠ "" →
      categorize fz regexLayer db userId (some d) mccCode language
        = ⟨c, "high", 0.85⟩) := by
  have hg1 : strIsEmpty d = false := by
    refine strIsEmpty_false_of_ne d (fun he => hd ?_)
    rw [he]; rfl
  have hg2 : strIsEmpty (pyStrip d) = false := strIsEmpty_false_of_ne _ hd
  constructor
  · intro s hs hscore
    simp only [categorize, hg1, hg2, Bool.or_self, Bool.false_eq_true, if_false, hs]
    rw [if_pos hscore]
  · intro hlow c hc hcne
    have htruthy : optStrTruthy mccCode = true := getMccMapping_truthy hc
    have hce : strIsEmpty c = false := strIsEmpty_false_of_ne c hcne
    cases hms : matchUserPattern fz db.patterns d userId with
    | none =>
      simp only [categorize, hg1, hg2, Bool.or_self, Bool.false_eq_true, if_false, hms,
        htruthy, hc, hce, if_true]
    | some s =>
      have hlt : s.score < 0.9 := hlow s hms
      simp only [categorize, hg1, hg2, Bool.or_self, Bool.false_eq_true, if_false, hms,
        htruthy, hc, hce]
      rw [if_neg (not_le.mpr hlt)]
      simp

/-! ## C6 -/

theorem matchUserPatternGo_eq_find (fz : Fuzz) (n r : String)
    (l : List TransactionPattern) :
    matchUserPatternGo fz n r l
      = (l.find? (meetsThreshold fz n r)).map (thresholdSuggestion fz n r) := by
  induction l with
  | nil => rfl
  | cons p rest ih =>
    by_cases h1 : (p.normalizedPattern == n) = true
    · simp [matchUserPatternGo, List.find?, meetsThreshold, thresholdSuggestion, h1]
    · by_cases h2 : 85 ≤ fz.similarity (pyLower p.rawDescription) (pyLower r)
      · simp [matchUserPatternGo, List.find?, meetsThreshold, thresholdSuggestion, h1, h2]
      · by_cases h3 : 90 ≤ fz.partialSimilarity p.normalizedPattern n
        · simp [matchUserPatternGo, List.find?, meetsThreshold, thresholdSuggestion,
            h1, h2, h3]
        · simp [matchUserPatternGo, List.find?, meetsThreshold, thresholdSuggestion,
            h1, h2, h3, ih]

/-- C6: the user-pattern layer scans the user rows sorted by descending
usage_count and returns the suggestion of the first row meeting any
threshold — exact normalized match (score min(0.95 + usage * 0.01,
0.99)), whole-string similarity at least 85 (score ratio over 100), or
partial similarity at least 90 (score over 100) — a first-match, not
best-match, scan. -/
theorem match_user_pattern_first_match (fz : Fuzz)
    (store : List TransactionPattern) (raw : String) (userId : Nat) :
    List.Sorted usageGe (getUserPatterns store userId)
    ∧ matchUserPattern fz store raw userId
        = ((getUserPatterns store userId).find?
              (meetsThreshold fz (normalizeText raw) raw)).map
            (thresholdSuggestion fz (normalizeText raw) raw) :=
  ⟨List.sorted_insertionSort usageGe _,
    matchUserPatternGo_eq_find fz (normalizeText raw) raw _⟩

/-! ## C4 -/

theorem patternKeyMatch_applyPatternUpdate (u : Nat) (n cat : String)
    (cid : Option Nat) (p : TransactionPattern) :
    patternKeyMatch u n (applyPatternUpdate cat cid p) = patternKeyMatch u n p := rfl

theorem patternKey_learnUpdate (u : Nat) (n cat : String) (cid : Option Nat)
    (p : TransactionPattern) :
    patternKey (if patternKeyMatch u n p then applyPatternUpdate cat cid p else p)
      = patternKey p := by
  by_cases h : patternKeyMatch u n p = true <;> simp [h, patternKey, applyPatternUpdate]

theorem uniqueKeys_learnPattern (store : List TransactionPattern) (u : Nat)
    (raw cat : String) (cid : Option Nat) (mcc : Option String)
    (h : UniqueKeys store) : UniqueKeys (learnPattern store u raw cat cid mcc) := by
  cases hf : findPattern store u (normalizeText raw) with
  | some p =>
    have hl : learnPattern store u raw cat cid mcc
        = store.map (fun q =>
            if patternKeyMatch u (normalizeText raw) q then
              applyPatternUpdate cat cid q
            else q) := by
      simp [learnPattern, hf]
    rw [hl]
    unfold UniqueKeys at h ⊢
    rw [List.pairwise_map]
    refine h.imp ?_
    intro a b hab
    rw [patternKey_learnUpdate, patternKey_learnUpdate]
    exact hab
  | none =>
    have hl : learnPattern store u raw cat cid mcc
        = store ++ [⟨u, raw, normalizeText raw, cat, cid, mcc, "expense", 1⟩] := by
      simp [learnPattern, hf]
    rw [hl]
    unfold UniqueKeys at h ⊢
    rw [List.pairwise_append]
    refine ⟨h, List.pairwise_singleton _ _, ?_⟩
    intro a ha b hb
    have hpred := List.find?_eq_none.mp hf a ha
    simp only [List.mem_singleton] at hb
    subst hb
    simp only [patternKeyMatch, Bool.and_eq_true, beq_iff_eq, not_and_or] at hpred
    intro hk
    have h1 : a.userId = u := congrArg Prod.fst hk
    have h2 : a.normalizedPattern = normalizeText raw := congrArg Prod.snd hk
    rcases hpred with hp | hp
    · exact hp h1
    · exact hp h2

theorem uniqueKeys_applyLearnCalls (store : List TransactionPattern)
    (calls : List LearnCall) (h : UniqueKeys store) :
    UniqueKeys (applyLearnCalls store calls) := by
  induction calls generalizing store with
  | nil => exact h
  | cons c rest ih =>
    exact ih _ (uniqueKeys_learnPattern store c.userId c.rawDescription
      c.categoryName c.categoryId c.mccCode h)

/-- C4 counterexample to the category_id clause: learning SHOP with
category A and id 5, then re-learning SHOP with category B and no
category id, keeps id 5 instead of overwriting it with the latest
(null) value; category_name is overwritten and usage_count becomes 2. -/
theorem learn_pattern_category_id_kept_cex :
    learnPattern (learnPattern [] 1 "SHOP" "A" (some 5) none) 1 "SHOP" "B" none none
      = [⟨1, "SHOP", "shop", "B", some 5, none, "expense", 2⟩]
    ∧ (⟨1, "SHOP", "shop", "B", some 5, none, "expense", 2⟩
        : TransactionPattern).categoryId ≠ none := by
  constructor
  · rfl
  · decide

/-- C4 as amended: starting from a store with at most one row per
(user_id, normalized_pattern) key, any sequence of learn_pattern calls
preserves the invariant; when the key exists, learn_pattern keeps the
row count, increments usage_count by exactly 1, overwrites
category_name, and overwrites category_id only when a non-null id is
supplied (keeping the stored one otherwise); when it does not exist,
exactly one new row with usage_count 1 is appended. -/
theorem learn_pattern_upsert_invariant (store : List TransactionPattern)
    (u : Nat) (raw cat : String) (cid : Option Nat) (mcc : Option String)
    (calls : List LearnCall) (hu : UniqueKeys store) :
    UniqueKeys (applyLearnCalls store calls)
    ∧ (∀ p, findPattern store u (normalizeText raw) = some p →
        (learnPattern store u raw cat cid mcc).length = store.length
        ∧ findPattern (learnPattern store u raw cat cid mcc) u (normalizeText raw)
            = some (applyPatternUpdate cat cid p))
    ∧ (findPattern store u (normalizeText raw) = none →
        learnPattern store u raw cat cid mcc
          = store ++ [⟨u, raw, normalizeText raw, cat, cid, mcc, "expense", 1⟩]) := by
  refine ⟨uniqueKeys_applyLearnCalls store calls hu, ?_, ?_⟩
  · intro p hp
    have hg : (fun q => patternKeyMatch u (normalizeText raw) q)
        ∘ (fun q => if patternKeyMatch u (normalizeText raw) q then
            applyPatternUpdate cat cid q else q)
        = fun q => patternKeyMatch u (normalizeText raw) q := by
      funext q
      by_cases hq : patternKeyMatch u (normalizeText raw) q = true <;>
        simp [hq, patternKeyMatch_applyPatternUpdate]
    have hl : learnPattern store u raw cat cid mcc
        = store.map (fun q =>
            if patternKeyMatch u (normalizeText raw) q then
              applyPatternUpdate cat cid q
            else q) := by
      simp [learnPattern, hp]
    constructor
    · rw [hl, List.length_map]
    · rw [hl]
      unfold findPattern
      rw [List.find?_map]
      unfold findPattern at hp
      rw [hg, hp]
      have hpt : patternKeyMatch u (normalizeText raw) p = true := List.find?_some hp
      simp [hpt]
  · intro hn
    simp [learnPattern, hn]

/-- Witness for C4: the theorem applied at an empty store (trivially
unique keys) and a first SHOP call, yielding the inserted row. -/
theorem learn_pattern_upsert_invariant_witness :
    learnPattern [] 1 "SHOP" "A" (some 5) none
      = [⟨1, "SHOP", normalizeText "SHOP", "A", some 5, none, "expense", 1⟩] :=
  (learn_pattern_upsert_invariant [] 1 "SHOP" "A" (some 5) none []
    (by simp [UniqueKeys])).2.2 rfl

/-- Witness for C1: with a stored exact pattern of usage 10 (score
0.99) and a mapped MCC code 5411, the pattern wins; with a description
matching no pattern the same MCC code yields its English category at
score 0.85. -/
theorem categorize_pattern_priority_then_mcc_witness :
    categorize ⟨fun _ _ => 0, fun _ _ => 0⟩ (fun _ _ => none)
        ⟨[⟨1, "SHOP X", normalizeText "SHOP X", "Cat1", none, none, "expense", 10⟩],
          [⟨"5411", "Grocery Stores", none, some "Groceries", some "Продукты", "expense"⟩],
          []⟩
        1 (some "SHOP X") (some "5411") "en"
      = ⟨"Cat1", "high",
          patternScore ⟨1, "SHOP X", normalizeText "SHOP X", "Cat1", none, none,
            "expense", 10⟩⟩
    ∧ categorize ⟨fun _ _ => 0, fun _ _ => 0⟩ (fun _ _ => none)
        ⟨[⟨1, "SHOP X", normalizeText "SHOP X", "Cat1", none, none, "expense", 10⟩],
          [⟨"5411", "Grocery Stores", none, some "Groceries", some "Продукты", "expense"⟩],
          []⟩
        1 (some "UNKNOWN_XYZ") (some "5411") "en"
      = ⟨"Groceries", "high", 0.85⟩ := by
  constructor
  · exact (categorize_pattern_priority_then_mcc
      ⟨fun _ _ => 0, fun _ _ => 0⟩ (fun _ _ => none)
      ⟨[⟨1, "SHOP X", normalizeText "SHOP X", "Cat1", none, none, "expense", 10⟩],
        [⟨"5411", "Grocery Stores", none, some "Groceries", some "Продукты", "expense"⟩],
        []⟩
      1 "SHOP X" (some "5411") "en" (by decide)).1
      ⟨"Cat1", patternScore ⟨1, "SHOP X", normalizeText "SHOP X", "Cat1", none, none,
        "expense", 10⟩, "pattern"⟩
      rfl (by norm_num [patternScore, min_def])
  · exact (categorize_pattern_priority_then_mcc
      ⟨fun _ _ => 0, fun _ _ => 0⟩ (fun _ _ => none)
      ⟨[⟨1, "SHOP X", normalizeText "SHOP X", "Cat1", none, none, "expense", 10⟩],
        [⟨"5411", "Grocery Stores", none, some "Groceries", some "Продукты", "expense"⟩],
        []⟩
      1 "UNKNOWN_XYZ" (some "5411") "en" (by decide)).2
      (fun s hs => by
        rw [show matchUserPattern ⟨fun _ _ => 0, fun _ _ => 0⟩
          [⟨1, "SHOP X", normalizeText "SHOP X", "Cat1", none, none, "expense", 10⟩]
          "UNKNOWN_XYZ" 1 = none from rfl] at hs
        cases hs)
      "Groceries" rfl (by decide)

/-! ## C3 -/

/-- C3 (code behavior at the failing input): in a three-entry confirm
batch whose middle entry fails at the category step with save_patterns
off, the session rollback discards the first (not yet committed) row,
only the third row is committed, yet imported_count reports 2. The
claim (and the spec) say only the failing attempt is rolled back and
the count equals what was persisted. -/
theorem confirm_import_rollback_discards_batch :
    confirmImport false
        [⟨1, "low", .okExisting, true, true⟩,
         ⟨2, "low", .fails, true, true⟩,
         ⟨3, "low", .okExisting, true, true⟩]
      = ⟨⟨[3], []⟩, 2, 0⟩
    ∧ (confirmImport false
        [⟨1, "low", .okExisting, true, true⟩,
         ⟨2, "low", .fails, true, true⟩,
         ⟨3, "low", .okExisting, true, true⟩]).importedCount
      ≠ (confirmImport false
        [⟨1, "low", .okExisting, true, true⟩,
         ⟨2, "low", .fails, true, true⟩,
         ⟨3, "low", .okExisting, true, true⟩]).session.committed.length := by
  constructor
  · rfl
  · decide

/-! ## Sign and cleanliness lemmas for the amount pipeline -/

/-- C2 counterexample to the both-directions clause: a stored row whose
descriptions are the string PYA — a substring of the candidate
description PYATYOROCHKA (stored-in-candidate) — with matching user,
amount and date, is not returned: the query only checks the
candidate-in-stored direction. -/
theorem find_duplicates_one_direction_cex :
    findDuplicates
        [⟨1, "expense", 500, "X", some "PYA", some "PYA", some 1769817600⟩]
        1 "PYATYOROCHKA" 500 (some 1769817600) 1
      = []
    ∧ strContainsSub (pyLower "PYATYOROCHKA") (pyLower "PYA") = true
    ∧ (⟨1, "expense", 500, "X", some "PYA", some "PYA", some 1769817600⟩
        : StoredTransaction).amount = abs (500 : ℚ)
    ∧ withinDays (some 1769817600) 1769817600 1 = true := by
  refine ⟨?_, by decide, by norm_num, by decide⟩
  have hb : ((1 : Nat) == 1 && (500 : ℚ) == abs (500 : ℚ)) = true := by
    simp
  simp only [findDuplicates, List.filter, hb, withinDays]
  norm_num [descMatches, optIContains]
  decide

/-- C2 as amended: find_duplicates returns exactly the stored rows of
the user whose amount equals the absolute candidate amount, whose date
(when a candidate date is given) lies within the tolerance window, and
whose raw or display description equals the candidate description or
matches the unescaped SQL ilike pattern built from it — checked
case-insensitively in one direction only, with percent signs and
underscores in the candidate acting as wildcards. The PYATYOROCHKA
example is found at amount 500 and not at 1000, and the underscore in
the candidate UBER_TRIP matches the stored text UBERXTRIP as a
one-character wildcard. -/
theorem find_duplicates_characterization (store : List StoredTransaction)
    (u : Nat) (desc : String) (amount : ℚ) (date : Option Int) (tol : Int) :
    findDuplicates store u desc amount date tol
      = store.filter (fun t =>
          t.userId == u && t.amount == abs amount
          && (match date with
              | some d2 => withinDays t.transactionDate d2 tol
              | none => true)
          && descMatches t desc)
    ∧ findDuplicates
        [⟨1, "expense", 500, "Groceries", some "PYATYOROCHKA 6431",
          some "POKUPKA PYATYOROCHKA 6431 MOSCOW", some 1769817600⟩]
        1 "PYATYOROCHKA" 500 (some 1769817600) 1
      = [⟨1, "expense", 500, "Groceries", some "PYATYOROCHKA 6431",
          some "POKUPKA PYATYOROCHKA 6431 MOSCOW", some 1769817600⟩]
    ∧ findDuplicates
        [⟨1, "expense", 500, "Groceries", some "PYATYOROCHKA 6431",
          some "POKUPKA PYATYOROCHKA 6431 MOSCOW", some 1769817600⟩]
        1 "PYATYOROCHKA" 1000 (some 1769817600) 1
      = []
    ∧ findDuplicates
        [⟨1, "expense", 300, "Transport", none, some "UBERXTRIP MOSCOW", none⟩]
        1 "UBER_TRIP" 300 none 1
      = [⟨1, "expense", 300, "Transport", none, some "UBERXTRIP MOSCOW", none⟩] := by
  refine ⟨?_, ?_, ?_, ?_⟩
  · cases date with
    | none =>
      simp only [findDuplicates, List.filter_filter]
      refine List.filter_congr ?_
      intro t _
      cases h1 : (t.userId == u && t.amount == abs amount) <;>
        cases h2 : descMatches t desc <;> simp [h1, h2]
    | some d2 =>
      simp only [findDuplicates, List.filter_filter]
      refine List.filter_congr ?_
      intro t _
      cases h1 : (t.userId == u && t.amount == abs amount) <;>
        cases h2 : descMatches t desc <;>
          cases h3 : withinDays t.transactionDate d2 tol <;> simp [h1, h2, h3]
  · have hb : ((1 : Nat) == 1 && (500 : ℚ) == abs (500 : ℚ)) = true := by simp
    simp only [findDuplicates, List.filter, hb, withinDays]
    norm_num [descMatches, optIContains]
    decide
  · have hb : ((500 : ℚ) == abs (1000 : ℚ)) = false := by simp
    simp [findDuplicates, List.filter, hb]
  · have hb : ((1 : Nat) == 1 && (300 : ℚ) == abs (300 : ℚ)) = true := by
      simp
    simp only [findDuplicates, List.filter, hb]
    norm_num [descMatches, optIContains]
    decide

/-! ## C7 -/

/-- C7 counterexample: a table carrying all three Sber columns together
with the Tinkoff operation-date column; every Sber required column is
present, yet SberAdapter.detect returns false. -/
theorem sber_detect_required_present_cex :
    sberDetect ["дата", "сумма", "описание", "дата операции"] = false
    ∧ requiredSubset ["дата", "сумма", "описание"]
        ["дата", "сумма", "описание", "дата операции"] = true := by
  constructor
  · rfl
  · rfl

/-- C7 as amended: every detect is a pure function of the
case-insensitive column-name set; Tinkoff, Alfa and Generic return
true exactly when all their required columns are present (Generic
requires none), while Sber additionally requires the Tinkoff
operation-date column to be absent. -/
theorem adapters_detect_characterization (cols cols2 : List String) :
    (tinkoffDetect cols = true ↔ ∀ c ∈ tinkoffRequired, columnPresent cols c = true)
    ∧ (alfaDetect cols = true ↔ ∀ c ∈ alfaRequired, columnPresent cols c = true)
    ∧ genericDetect cols = true
    ∧ (sberDetect cols = true ↔
        (∀ c ∈ sberRequired, columnPresent cols c = true)
        ∧ columnPresent cols "дата операции" = false)
    ∧ ((∀ c, columnPresent cols c = columnPresent cols2 c) →
        tinkoffDetect cols = tinkoffDetect cols2
        ∧ sberDetect cols = sberDetect cols2
        ∧ alfaDetect cols = alfaDetect cols2
        ∧ genericDetect cols = genericDetect cols2) := by
  have hsub : ∀ req : List String,
      (requiredSubset req cols = true ↔ ∀ c ∈ req, columnPresent cols c = true) := by
    intro req
    simp [requiredSubset, List.all_eq_true]
  refine ⟨hsub _, hsub _, rfl, ?_, ?_⟩
  · simp only [sberDetect, Bool.and_eq_true, Bool.not_eq_true']
    rw [hsub]
  · intro h
    have hfun : columnPresent cols = columnPresent cols2 := funext h
    refine ⟨?_, ?_, ?_, rfl⟩ <;>
      simp [tinkoffDetect, sberDetect, alfaDetect, requiredSubset, hfun]

/-- Witness for C7: the purity implication applied to a column list and
a case-variant of it, and the Tinkoff characterization at a complete
header. -/
theorem adapters_detect_characterization_witness :
    tinkoffDetect ["Дата операции", "Описание", "Сумма операции", "Категория", "MCC"] = true
    ∧ sberDetect ["дата", "сумма", "описание"] = sberDetect ["Дата", "Сумма", "Описание"] := by
  constructor
  · exact (adapters_detect_characterization
      ["Дата операции", "Описание", "Сумма операции", "Категория", "MCC"] []).1.mpr
      (by decide)
  · refine ((adapters_detect_characterization
      ["дата", "сумма", "описание"] ["Дата", "Сумма", "Описание"]).2.2.2.2 ?_).2.1
    intro c
    have hmaps : (["дата", "сумма", "описание"].map pyLower)
        = (["Дата", "Сумма", "Описание"].map pyLower) := by decide
    simp [columnPresent, hmaps]

/-! ## C9 -/

/-- C9 counterexample to the never-raises generic fallback: when text
extraction fails (the very event that makes the Sber attempt raise),
the generic fallback re-runs that extraction and raises the same
error, so the dispatcher returns an error instead of the empty list
the claim promises. -/
theorem pdf_dispatch_generic_raises_cex :
    pdfDispatch none (fun _ => none) (.error ()) (.error ()) = .error ()
    ∧ pdfDispatch none (fun _ => none) (.error ()) (.error ())
        ≠ .ok ([] : List ParsedTx) :=
  ⟨rfl, fun hcontra => by cases hcontra⟩

/-- C9 as amended: a truthy hint naming Tinkoff or Sber (Latin or
Cyrillic, lower-cased first) routes to that bank parser, whose outcome
— including a raised extraction error — is returned as is; without a
hint the Tinkoff attempt is returned when its table extraction
succeeds, else the Sber attempt when text extraction succeeds (even
with an empty result), and when both extractions fail the generic
fallback raises that same text-extraction error rather than returning;
the generic line scan itself is total and yields the empty list when
no line carries both a parsable date and a nonzero parsable amount. -/
theorem pdf_dispatch_characterization (tables : Except Unit (List TinkoffPdfRow))
    (text : Except Unit PdfText) (h : String) (pd : String → Option Int)
    (lines : List GenericPdfLine) :
    (strIsEmpty h = false →
      (strContainsSub (pyLower h) "tinkoff" || strContainsSub (pyLower h) "тинькофф") = true →
      pdfDispatch (some h) pd tables text = tables.map tinkoffPdfParse)
    ∧ (strIsEmpty h = false →
      (strContainsSub (pyLower h) "tinkoff" || strContainsSub (pyLower h) "тинькофф") = false →
      (strContainsSub (pyLower h) "sber" || strContainsSub (pyLower h) "сбер") = true →
      pdfDispatch (some h) pd tables text = text.map (fun t => sberPdfParse t.sberLines))
    ∧ (∀ rows, tables = .ok rows →
        pdfDispatch none pd tables text = .ok (tinkoffPdfParse rows))
    ∧ (∀ e t, tables = .error e → text = .ok t →
        pdfDispatch none pd tables text = .ok (sberPdfParse t.sberLines))
    ∧ (∀ e e2, tables = .error e → text = .error e2 →
        pdfDispatch none pd tables text = .error e2)
    ∧ ((∀ ln ∈ lines, firstParsedDate pd ln.dateCandidates = none
          ∨ firstValidAmount ln.amountCandidates = none) →
        genericPdfParse pd lines = []) := by
  refine ⟨?_, ?_, ?_, ?_, ?_, ?_⟩
  · intro he ht
    simp [pdfDispatch, he, ht]
  · intro he ht hs
    simp [pdfDispatch, he, ht, hs]
  · intro rows hl
    simp [pdfDispatch, hl, Except.map]
  · intro e t hl hs
    simp [pdfDispatch, hl, hs, Except.map]
  · intro e e2 hl hs
    simp [pdfDispatch, hl, hs, Except.map]
  · intro hnone
    refine List.filterMap_eq_nil_iff.mpr ?_
    intro ln hln
    rcases hnone ln hln with hd | ha
    · simp [genericPdfParseLine, hd]
    · unfold genericPdfParseLine
      rw [ha]
      split
      · next heq1 heq2 =>
        cases heq2
      · rfl

/-- Witness for C9 as amended: the Tinkoff hint branch at a
capitalized Latin hint, the Sber hint branch at a Cyrillic hint
propagating the extraction error, the no-hint Sber fallback, and the
generic line scan on a line with no amount candidates. -/
theorem pdf_dispatch_characterization_witness :
    pdfDispatch (some "Tinkoff Bank") (fun _ => none) (.ok []) (.error ())
        = .ok ([] : List ParsedTx)
    ∧ pdfDispatch (some "сбербанк") (fun _ => none) (.ok []) (.error ())
        = .error ()
    ∧ pdfDispatch none (fun _ => none) (.error ()) (.ok ⟨[], []⟩)
        = .ok ([] : List ParsedTx)
    ∧ genericPdfParse (fun _ => some 0) [⟨["01.01.2024"], [], "abc"⟩] = [] := by
  refine ⟨?_, ?_, ?_, ?_⟩
  · exact (pdf_dispatch_characterization (.ok []) (.error ()) "Tinkoff Bank"
      (fun _ => none) []).1 (by decide) (by decide)
  · exact (pdf_dispatch_characterization (.ok []) (.error ()) "сбербанк"
      (fun _ => none) []).2.1 (by decide) (by decide) (by decide)
  · exact (pdf_dispatch_characterization (.error ()) (.ok ⟨[], []⟩) ""
      (fun _ => none) []).2.2.2.1 () ⟨[], []⟩ rfl rfl
  · exact (pdf_dispatch_characterization (.ok []) (.ok ⟨[], []⟩) ""
      (fun _ => none) [⟨["01.01.2024"], [], "abc"⟩]).2.2.2.2.2
      (fun ln hln => by
        rw [List.mem_singleton] at hln
        subst hln
        exact Or.inr rfl)

end Scrooge
